import Mathlib

set_option maxRecDepth 400000

/-!
Shallow embedding of the caching reverse proxy in `src/agentica/cache.py`
(class `CacheHandler`, class `RequestCache`), together with the pieces of the
Python standard library its behaviour depends on: UTF-8 encoding and lossy
decoding (`bytes.decode` with the ignore error handler), `json.dumps` with
`sort_keys=True`, ASCII lowercasing (`str.lower`), and `hashlib.sha256`.

Bytes are modelled as `List Nat` (each byte `< 256`); 32-bit words inside
SHA-256 are `Nat` with explicit reduction modulo `2 ^ 32`.  Dictionaries
(Python `dict`, and aiohttp header multidicts) are modelled as association
lists `List (String × String)` in insertion order.  The SQLite table with
`key` as primary key is modelled as an association list on which
`INSERT OR REPLACE` removes the old row for the key.  Network and file-system
effects are passed in explicitly: the upstream server is a function argument,
and the overlay file write receives an optional exception.
-/

namespace Agentica

/-! ### ASCII lowercasing (`str.lower` on the ASCII range)

All strings the code lowercases before comparing (`FILE_CACHE` values, header
names) are compared against ASCII literals, so the ASCII fragment of
`str.lower` is the relevant one. -/

def asciiLowerChar (c : Char) : Char :=
  if c.toNat ≥ 65 ∧ c.toNat ≤ 90 then Char.ofNat (c.toNat + 32) else c

def asciiLower (s : String) : String :=
  ⟨s.data.map asciiLowerChar⟩

/-! ### UTF-8 encoding (`str.encode()`) -/

def charUtf8 (c : Char) : List Nat :=
  let n := c.toNat
  if n < 128 then [n]
  else if n < 2048 then [192 + n / 64, 128 + n % 64]
  else if n < 65536 then [224 + n / 4096, 128 + n / 64 % 64, 128 + n % 64]
  else [240 + n / 262144, 128 + n / 4096 % 64, 128 + n / 64 % 64, 128 + n % 64]

def strBytes (s : String) : List Nat :=
  (s.data.map charUtf8).flatten

/-! ### Lossy UTF-8 decoding (`bytes.decode` with the ignore error handler)

On an invalid sequence the `ignore` error handler drops the maximal subpart
(the lead byte together with the continuation bytes already validated) and
resumes at the first offending byte. -/

def isCont (b : Nat) : Bool := 128 ≤ b ∧ b ≤ 191

/-- One decoding step: given the first byte and the bytes after it, return the
decoded character (if the sequence starting here is valid) and how many bytes
after the first one belong to the maximal subpart consumed. -/
def utf8Step (b0 : Nat) (rest : List Nat) : Option Char × Nat :=
  if b0 < 128 then (some (Char.ofNat b0), 0)
  else if 194 ≤ b0 ∧ b0 ≤ 223 then
    match rest with
    | b1 :: _ =>
      if isCont b1 then (some (Char.ofNat ((b0 - 192) * 64 + (b1 - 128))), 1)
      else (none, 0)
    | [] => (none, 0)
  else if 224 ≤ b0 ∧ b0 ≤ 239 then
    match rest with
    | b1 :: rest1 =>
      let okB1 : Bool :=
        if b0 = 224 then 160 ≤ b1 ∧ b1 ≤ 191
        else if b0 = 237 then 128 ≤ b1 ∧ b1 ≤ 159
        else isCont b1
      if okB1 then
        match rest1 with
        | b2 :: _ =>
          if isCont b2 then
            (some (Char.ofNat ((b0 - 224) * 4096 + (b1 - 128) * 64 + (b2 - 128))), 2)
          else (none, 1)
        | [] => (none, 1)
      else (none, 0)
    | [] => (none, 0)
  else if 240 ≤ b0 ∧ b0 ≤ 244 then
    match rest with
    | b1 :: rest1 =>
      let okB1 : Bool :=
        if b0 = 240 then 144 ≤ b1 ∧ b1 ≤ 191
        else if b0 = 244 then 128 ≤ b1 ∧ b1 ≤ 143
        else isCont b1
      if okB1 then
        match rest1 with
        | b2 :: rest2 =>
          if isCont b2 then
            match rest2 with
            | b3 :: _ =>
              if isCont b3 then
                (some (Char.ofNat ((b0 - 240) * 262144 + (b1 - 128) * 4096 +
                  (b2 - 128) * 64 + (b3 - 128))), 3)
              else (none, 2)
            | [] => (none, 2)
          else (none, 1)
        | [] => (none, 1)
      else (none, 0)
    | [] => (none, 0)
  else (none, 0)

/-- Decoding loop, structurally recursive on a fuel argument; every step
consumes at least one byte, so fuel `l.length` is enough. -/
def utf8DecodeGo : Nat → List Nat → List Char
  | _, [] => []
  | 0, _ => []
  | fuel + 1, b0 :: rest =>
    match utf8Step b0 rest with
    | (some c, k) => c :: utf8DecodeGo fuel (rest.drop k)
    | (none, k) => utf8DecodeGo fuel (rest.drop k)

def utf8DecodeIgnore (l : List Nat) : List Char :=
  utf8DecodeGo l.length l

def decodeUtf8Ignore (body : List Nat) : String :=
  ⟨utf8DecodeIgnore body⟩

/-! ### `json.dumps` with `sort_keys=True` for flat string-valued dicts

`json.dumps` escapes `"` and `\`, renders control characters as `\b`, `\t`,
`\n`, `\f`, `\r` or `\u00xx`, and (with the default `ensure_ascii=True`)
renders non-ASCII characters as `\uxxxx`, using surrogate pairs beyond the
basic multilingual plane.  Default separators are `", "` and `": "`. -/

def hexDigit (n : Nat) : Char :=
  if n < 10 then Char.ofNat (48 + n) else Char.ofNat (87 + n % 16)

def hex4 (n : Nat) : String :=
  ⟨[hexDigit (n / 4096 % 16), hexDigit (n / 256 % 16),
    hexDigit (n / 16 % 16), hexDigit (n % 16)]⟩

def jsonEscapeChar (c : Char) : String :=
  if c = Char.ofNat 34 then "\\\""
  else if c = Char.ofNat 92 then "\\\\"
  else if c = Char.ofNat 8 then "\\b"
  else if c = Char.ofNat 9 then "\\t"
  else if c = Char.ofNat 10 then "\\n"
  else if c = Char.ofNat 12 then "\\f"
  else if c = Char.ofNat 13 then "\\r"
  else if c.toNat < 32 then "\\u" ++ hex4 c.toNat
  else if c.toNat < 127 then ⟨[c]⟩
  else if c.toNat < 65536 then "\\u" ++ hex4 c.toNat
  else
    let v := c.toNat - 65536
    "\\u" ++ hex4 (55296 + v / 1024) ++ "\\u" ++ hex4 (56320 + v % 1024)

def jsonString (s : String) : String :=
  "\"" ++ String.join (s.data.map jsonEscapeChar) ++ "\""

/-- Code-point lexicographic order on character lists: the Python `str` order. -/
def charListLe : List Char → List Char → Bool
  | [], _ => true
  | _ :: _, [] => false
  | a :: as, b :: bs =>
    if a.toNat < b.toNat then true
    else if b.toNat < a.toNat then false
    else charListLe as bs

def strLe (a b : String) : Bool := charListLe a.data b.data

/-- Insert a pair into a list sorted by key (`sort_keys=True` ordering). -/
def insertByKey (p : String × String) : List (String × String) → List (String × String)
  | [] => [p]
  | q :: l => if strLe p.1 q.1 then p :: q :: l else q :: insertByKey p l

def sortByKey : List (String × String) → List (String × String)
  | [] => []
  | p :: l => insertByKey p (sortByKey l)

/-- Serialization as `json.dumps` with sorted keys for a dict of strings, given in insertion
order.  (`\x7b` and `\x7d` are the brace characters.) -/
def jsonDumpsSortKeys (d : List (String × String)) : String :=
  "\x7b" ++
    String.intercalate ", "
      ((sortByKey d).map (fun p => jsonString p.1 ++ ": " ++ jsonString p.2)) ++
  "\x7d"

/-! ### SHA-256 (`hashlib.sha256(...).hexdigest()`)

Straight implementation of FIPS 180-4 over `Nat`, words reduced mod `2 ^ 32`.
-/

def wordMod : Nat := 4294967296

def wmask (n : Nat) : Nat := n % wordMod

def rotr (k n : Nat) : Nat := wmask ((n >>> k) ||| (n <<< (32 - k)))

def notWord (n : Nat) : Nat := 4294967295 - wmask n

def bsig0 (x : Nat) : Nat := rotr 2 x ^^^ rotr 13 x ^^^ rotr 22 x
def bsig1 (x : Nat) : Nat := rotr 6 x ^^^ rotr 11 x ^^^ rotr 25 x
def ssig0 (x : Nat) : Nat := rotr 7 x ^^^ rotr 18 x ^^^ (x >>> 3)
def ssig1 (x : Nat) : Nat := rotr 17 x ^^^ rotr 19 x ^^^ (x >>> 10)
def chWord (x y z : Nat) : Nat := (x &&& y) ^^^ (notWord x &&& z)
def majWord (x y z : Nat) : Nat := (x &&& y) ^^^ (x &&& z) ^^^ (y &&& z)

def shaK : List Nat :=
  [1116352408, 1899447441, 3049323471, 3921009573,
   961987163, 1508970993, 2453635748, 2870763221,
   3624381080, 310598401, 607225278, 1426881987,
   1925078388, 2162078206, 2614888103, 3248222580,
   3835390401, 4022224774, 264347078, 604807628,
   770255983, 1249150122, 1555081692, 1996064986,
   2554220882, 2821834349, 2952996808, 3210313671,
   3336571891, 3584528711, 113926993, 338241895,
   666307205, 773529912, 1294757372, 1396182291,
   1695183700, 1986661051, 2177026350, 2456956037,
   2730485921, 2820302411, 3259730800, 3345764771,
   3516065817, 3600352804, 4094571909, 275423344,
   430227734, 506948616, 659060556, 883997877,
   958139571, 1322822218, 1537002063, 1747873779,
   1955562222, 2024104815, 2227730452, 2361852424,
   2428436474, 2756734187, 3204031479, 3329325298]

/-- Big-endian byte rendering of `n`, `k` bytes wide. -/
def bytesBE : Nat → Nat → List Nat
  | 0, _ => []
  | k + 1, n => bytesBE k (n / 256) ++ [n % 256]

def sha256Pad (msg : List Nat) : List Nat :=
  let padZeros := (119 - msg.length % 64) % 64
  msg ++ [128] ++ List.replicate padZeros 0 ++ bytesBE 8 (8 * msg.length)

/-- Group bytes into big-endian 32-bit words. -/
def toWords : List Nat → List Nat
  | a :: b :: c :: d :: rest => (((a * 256 + b) * 256 + c) * 256 + d) :: toWords rest
  | _ => []

/-- Split into 16-word blocks (the word list always has a multiple of 16
words, so the catch-all case only sees `[]`). -/
def blocks16 : List Nat → List (List Nat)
  | w0 :: w1 :: w2 :: w3 :: w4 :: w5 :: w6 :: w7 ::
    w8 :: w9 :: w10 :: w11 :: w12 :: w13 :: w14 :: w15 :: rest =>
    [w0, w1, w2, w3, w4, w5, w6, w7, w8, w9, w10, w11, w12, w13, w14, w15] ::
      blocks16 rest
  | _ => []

def extendLoop : Nat → Array Nat → Array Nat
  | 0, w => w
  | n + 1, w =>
    let i := w.size
    let x := wmask (ssig1 (w.getD (i - 2) 0) + w.getD (i - 7) 0 +
      ssig0 (w.getD (i - 15) 0) + w.getD (i - 16) 0)
    extendLoop n (w.push x)

def schedule (block : List Nat) : List Nat :=
  (extendLoop 48 block.toArray).toList

structure Hash8 where
  a : Nat
  b : Nat
  c : Nat
  d : Nat
  e : Nat
  f : Nat
  g : Nat
  h : Nat
deriving DecidableEq

def shaH0 : Hash8 :=
  ⟨1779033703, 3144134277, 1013904242, 2773480762,
   1359893119, 2600822924, 528734635, 1541459225⟩

def shaRound (st : Hash8) (kw : Nat × Nat) : Hash8 :=
  let t1 := wmask (st.h + bsig1 st.e + chWord st.e st.f st.g + kw.1 + kw.2)
  let t2 := wmask (bsig0 st.a + majWord st.a st.b st.c)
  ⟨wmask (t1 + t2), st.a, st.b, st.c, wmask (st.d + t1), st.e, st.f, st.g⟩

def shaCompress (h : Hash8) (block : List Nat) : Hash8 :=
  let st := (shaK.zip (schedule block)).foldl shaRound h
  ⟨wmask (h.a + st.a), wmask (h.b + st.b), wmask (h.c + st.c), wmask (h.d + st.d),
   wmask (h.e + st.e), wmask (h.f + st.f), wmask (h.g + st.g), wmask (h.h + st.h)⟩

def hex8 (n : Nat) : String :=
  hex4 (n / 65536) ++ hex4 (n % 65536)

def sha256Hex (msg : List Nat) : String :=
  let st := ((blocks16 (toWords (sha256Pad msg))).foldl shaCompress shaH0)
  hex8 st.a ++ hex8 st.b ++ hex8 st.c ++ hex8 st.d ++
    hex8 st.e ++ hex8 st.f ++ hex8 st.g ++ hex8 st.h

def sha256HexOfString (s : String) : String :=
  sha256Hex (strBytes s)

/-! ### `CacheHandler._hash_request` -/

/-- The `request_data` dict of `_hash_request`, in source insertion order. -/
def requestData (method path : String) (body : List Nat) (redirect_url : String) :
    List (String × String) :=
  [("method", method),
   ("path", path),
   ("body", if body = [] then "" else decodeUtf8Ignore body),
   ("redirect_url", redirect_url)]

/-- Model of `CacheHandler._hash_request`: returns `(hex key, canonical string)`. -/
def hash_request (method path : String) (body : List Nat) (redirect_url : String) :
    String × String :=
  let request_str := jsonDumpsSortKeys (requestData method path body redirect_url)
  (sha256HexOfString request_str, request_str)

/-! ### Cache entries and the two stores

The SQLite table (`key TEXT PRIMARY KEY, status_code, headers, body,
created_at`) is modelled as an association list of parsed rows; `headers` is
stored as `json.dumps` text and parsed back by `json.loads`, a faithful
round trip for a flat string dict, so the model keeps the dict itself.
`created_at` defaults to the insertion time and is informational only.
The file overlay is one JSON document per key under `FILE_CACHE_DIR`; its
`body` field is base64 text, again a faithful round trip, so the model keeps
the decoded bytes, together with the explicit `timestamp` field. -/

def REDIRECT_HEADER : String := "X-Cache-Redirect-To"

def FILE_CACHE_DIR : String := "tests/file_cache"

structure Entry where
  status_code : Nat
  headers : List (String × String)
  body : List Nat
deriving DecidableEq

/-- Model of `CacheHandler._get_cached_response` (the `SELECT ... WHERE key = ?`). -/
def dbGet (db : List (String × Entry)) (cache_key : String) : Option Entry :=
  (db.find? (fun p => p.1 == cache_key)).map (fun p => p.2)

/-- Model of `CacheHandler._save_response` (the `INSERT OR REPLACE`): the row whose
primary key collides is replaced, never duplicated. -/
def dbPut (db : List (String × Entry)) (cache_key : String) (e : Entry) :
    List (String × Entry) :=
  (cache_key, e) :: db.filter (fun p => !(p.1 == cache_key))

structure FileEntry where
  status_code : Nat
  headers : List (String × String)
  body : List Nat
  timestamp : Nat
deriving DecidableEq

/-- Model of `CacheHandler._get_file_cache_path`. -/
def file_cache_path (cache_key : String) : String :=
  FILE_CACHE_DIR ++ "/" ++ cache_key ++ ".json"

/-- Model of `CacheHandler._get_file_cached_response`: one file per key. -/
def overlayGet (files : List (String × FileEntry)) (cache_key : String) :
    Option FileEntry :=
  (files.find? (fun p => p.1 == cache_key)).map (fun p => p.2)

def overlayPut (files : List (String × FileEntry)) (cache_key : String)
    (e : FileEntry) : List (String × FileEntry) :=
  (cache_key, e) :: files.filter (fun p => !(p.1 == cache_key))

/-! ### Header dictionaries -/

/-- Strip every header whose lowercased name is in `names`
(`k.lower() not in (...)` filters in the source). -/
def stripHeaders (names : List String) (hs : List (String × String)) :
    List (String × String) :=
  hs.filter (fun p => !(names.contains (asciiLower p.1)))

/-- Hop-specific headers removed before the upstream call. -/
def forwardHeadersOf (hs : List (String × String)) : List (String × String) :=
  stripHeaders ["host", "x-cache-redirect-to"] hs

/-- Transport-framing headers removed before relaying or replaying. -/
def cleanFramingHeaders (hs : List (String × String)) : List (String × String) :=
  stripHeaders ["transfer-encoding", "content-length", "content-encoding"] hs

/-- Model of `request.headers.get` on the case-insensitive aiohttp multidict. -/
def headersGetCI (hs : List (String × String)) (name : String) : Option String :=
  (hs.find? (fun p => asciiLower p.1 == asciiLower name)).map (fun p => p.2)

/-- Python dict item assignment `d[k] = v` (insertion order preserved). -/
def dictSet (hs : List (String × String)) (k v : String) :
    List (String × String) :=
  if hs.any (fun p => p.1 == k) then
    hs.map (fun p => if p.1 == k then (k, v) else p)
  else hs ++ [(k, v)]

/-- Python dict lookup `d.get(k)` (exact key). -/
def dictGet (hs : List (String × String)) (k : String) : Option String :=
  (hs.find? (fun p => p.1 == k)).map (fun p => p.2)

/-- Model of the `rstrip` call removing trailing slashes from the redirect URL. -/
def rstripSlash (s : String) : String :=
  ⟨(s.data.reverse.dropWhile (fun c => c == Char.ofNat 47)).reverse⟩

/-! ### The forwarder and the request handler -/

structure Response where
  status : Nat
  headers : List (String × String)
  body : List Nat
deriving DecidableEq

structure ForwardedCall where
  method : String
  url : String
  headers : List (String × String)
  body : List Nat
deriving DecidableEq

/-- The live upstream server, passed in as an oracle: what
`aiohttp.ClientSession.request` answers for a given outbound request. -/
def Upstream : Type := ForwardedCall → Response

structure ForwardResult where
  status : Nat
  headers : List (String × String)
  body : List Nat
  streamed : Response
  call : ForwardedCall
deriving DecidableEq

/-- Model of `CacheHandler._forward_request`: builds the outbound URL and headers,
issues the upstream call, streams the response downstream with the framing
headers stripped, collects the body, and returns
`(status, dict(response.headers), collected body)` — the returned headers are
the verbatim upstream headers, not the cleaned ones. -/
def forward_request (upstream : Upstream) (method path : String)
    (headers : List (String × String)) (body : List Nat)
    (redirect_url : String) : ForwardResult :=
  let url := rstripSlash redirect_url ++ path
  let forward_headers := forwardHeadersOf headers
  let resp := upstream ⟨method, url, forward_headers, body⟩
  let clean_headers := cleanFramingHeaders resp.headers
  { status := resp.status
    headers := resp.headers
    body := resp.body
    streamed := ⟨resp.status, clean_headers, resp.body⟩
    call := ⟨method, url, forward_headers, body⟩ }

/-- The duplicated cache-hit block of `handle_request`: drop framing headers
from the stored entry and set `Content-Length` from the actual stored body. -/
def replayResponse (status_code : Nat) (headers : List (String × String))
    (response_body : List Nat) : Response :=
  let clean_headers := cleanFramingHeaders headers
  let clean_headers := dictSet clean_headers "Content-Length"
    (toString response_body.length)
  ⟨status_code, clean_headers, response_body⟩

inductive HandlerError where
  | runtimeError (msg : String)
deriving DecidableEq

/-- Ambient effects of one request: the upstream oracle, the exception (if
any) raised by the overlay snapshot file write, the `GITHUB_OUTPUT`
environment variable, and the wall-clock time used for the overlay
`timestamp` field. -/
structure Env where
  upstream : Upstream
  fsError : Option String
  github_output : Option String
  now : Nat

instance exceptDecEq {ε α : Type} [DecidableEq ε] [DecidableEq α] :
    DecidableEq (Except ε α) := fun x y =>
  match x, y with
  | .ok a, .ok b =>
    if h : a = b then .isTrue (by rw [h]) else .isFalse (by simp [h])
  | .error a, .error b =>
    if h : a = b then .isTrue (by rw [h]) else .isFalse (by simp [h])
  | .ok _, .error _ => .isFalse (by simp)
  | .error _, .ok _ => .isFalse (by simp)

structure HandleResult where
  response : Except HandlerError Response
  db : List (String × Entry)
  files : List (String × FileEntry)
  calls : List ForwardedCall
  log : List String
  ci : List String
deriving DecidableEq

/-- Model of `CacheHandler._save_file_cached_response`: writes the snapshot document;
any exception is caught and printed, never propagated. -/
def save_file_cached_response (env : Env) (files : List (String × FileEntry))
    (cache_key : String) (status_code : Nat) (headers : List (String × String))
    (body : List Nat) : List (String × FileEntry) × List String :=
  match env.fsError with
  | none => (overlayPut files cache_key ⟨status_code, headers, body, env.now⟩, [])
  | some e =>
    (files, ["Error writing file cache " ++ file_cache_path cache_key ++ ": " ++ e])

/-- Model of `CacheHandler.handle_request`. -/
def handle_request (file_cache_mode : String) (env : Env)
    (db : List (String × Entry)) (files : List (String × FileEntry))
    (method path_qs : String) (reqHeaders : List (String × String))
    (body : List Nat) : HandleResult :=
  match headersGetCI reqHeaders REDIRECT_HEADER with
  | none =>
    { response := .ok ⟨400, [], strBytes "Missing X-Cache-Redirect-To header"⟩
      db, files, calls := [], log := [], ci := [] }
  | some redirect_url =>
    if redirect_url = "" then
      { response := .ok ⟨400, [], strBytes "Missing X-Cache-Redirect-To header"⟩
        db, files, calls := [], log := [], ci := [] }
    else
      let hr := hash_request method path_qs body redirect_url
      let cache_key := hr.1
      let cache_key_str := hr.2
      if file_cache_mode = "read" then
        match overlayGet files cache_key with
        | some fe =>
          { response := .ok (replayResponse fe.status_code fe.headers fe.body)
            db, files, calls := [], log := [], ci := [] }
        | none =>
          let message :=
            "Cache miss in read mode for key: " ++ cache_key ++ "\n\n" ++ cache_key_str
          { response := .error (.runtimeError message)
            db, files, calls := [], log := []
            ci := match env.github_output with | some _ => [message] | none => [] }
      else
        match dbGet db cache_key with
        | some e =>
          { response := .ok (replayResponse e.status_code e.headers e.body)
            db, files, calls := [], log := [], ci := [] }
        | none =>
          let fr := forward_request env.upstream method path_qs reqHeaders body redirect_url
          if 200 ≤ fr.status ∧ fr.status < 300 then
            let db2 := dbPut db cache_key ⟨fr.status, fr.headers, fr.body⟩
            if file_cache_mode = "write" then
              let saved := save_file_cached_response env files cache_key fr.status fr.headers fr.body
              { response := .ok fr.streamed, db := db2, files := saved.1
                calls := [fr.call], log := saved.2, ci := [] }
            else
              { response := .ok fr.streamed, db := db2, files
                calls := [fr.call], log := [], ci := [] }
          else
            { response := .ok fr.streamed, db, files
              calls := [fr.call], log := [], ci := [] }

/-! ### `CacheHandler.__init__` configuration validation -/

/-- The `FILE_CACHE` validation in `CacheHandler.__init__`: the value is
lowercased first, then required to be one of empty, `read`, `write`. -/
def mkFileCacheMode (envFileCache : Option String) : Except String String :=
  let file_cache_mode := asciiLower (envFileCache.getD "")
  if ¬(file_cache_mode = "" ∨ file_cache_mode = "read" ∨ file_cache_mode = "write") then
    .error ("Invalid FILE_CACHE value: " ++ file_cache_mode ++
      ". Must be a valid mode string")
  else
    .ok file_cache_mode

/-! ### `RequestCache.hook_openai` -/

structure Client where
  base_url : String
  custom_headers : List (String × String)
deriving DecidableEq

def proxyBaseUrl (port : Nat) : String :=
  "http://localhost:" ++ toString port ++ "/"

inductive HookError where
  | assertionError
deriving DecidableEq

/-- Model of `RequestCache.hook_openai` after the server is started on `port`: if the
marker header is present, assert the base URL is already the proxy and return
the client untouched; otherwise stash the current base URL in the header and
rewrite the base URL to the proxy. -/
def hook_openai (port : Nat) (client : Client) : Except HookError Client :=
  if client.custom_headers.any (fun p => p.1 == REDIRECT_HEADER) then
    if client.base_url = proxyBaseUrl port then .ok client
    else .error .assertionError
  else
    .ok { base_url := proxyBaseUrl port
          custom_headers := dictSet client.custom_headers REDIRECT_HEADER client.base_url }

/-! ### Order predicate used in the sorting proofs -/

/-- Keys ordered by the Python string order (proposition form). -/
def keyLe (p q : String × String) : Prop := strLe p.1 q.1 = true

/-! ### Concrete fixtures used by the witness theorems -/

def stubHeaders : List (String × String) :=
  [("Host", "localhost"), ("X-Cache-Redirect-To", "http://upstream")]

/-- A stub upstream answering 200 with framing headers and a stale length. -/
def stubOk : Upstream := fun _ =>
  ⟨200,
   [("Content-Type", "application/json"), ("Transfer-Encoding", "chunked"),
    ("Content-Length", "999")],
   strBytes "\x7b\"ok\":true\x7d"⟩

/-- A stub upstream answering 500. -/
def stubErr : Upstream := fun _ => ⟨500, [("Content-Type", "text/plain")], strBytes "boom"⟩

def envOk : Env := ⟨stubOk, none, none, 42⟩

def envErr : Env := ⟨stubErr, none, none, 42⟩

def envOkFsFail : Env := ⟨stubOk, some "No space left on device", none, 42⟩

def storedEntry : Entry :=
  ⟨200,
   [("Content-Type", "application/json"), ("Content-Length", "999"),
    ("Transfer-Encoding", "chunked")],
   strBytes "\x7b\"ok\":true\x7d"⟩

def storedFileEntry : FileEntry :=
  ⟨200,
   [("Content-Type", "application/json"), ("Content-Length", "999"),
    ("Transfer-Encoding", "chunked")],
   strBytes "\x7b\"ok\":true\x7d", 41⟩

def demoKey : String := (hash_request "GET" "/p" [] "http://upstream").1

/-! ## Helper lemmas -/

theorem charListLe_cons_iff (a b : Char) (as bs : List Char) :
    charListLe (a :: as) (b :: bs) = true ↔
      a.toNat < b.toNat ∨ (a.toNat = b.toNat ∧ charListLe as bs = true) := by
  by_cases h1 : a.toNat < b.toNat
  · simp [charListLe, h1]
  · by_cases h2 : b.toNat < a.toNat
    · have hne : ¬a.toNat = b.toNat := by omega
      simp [charListLe, h1, h2, hne]
    · have heq : a.toNat = b.toNat := by omega
      simp [charListLe, h1, h2, heq]

theorem charListLe_total : ∀ a b : List Char, charListLe a b = true ∨ charListLe b a = true
  | [], _ => Or.inl rfl
  | _ :: _, [] => Or.inr rfl
  | a :: as, b :: bs => by
    rcases Nat.lt_trichotomy a.toNat b.toNat with h | h | h
    · exact Or.inl ((charListLe_cons_iff a b as bs).mpr (Or.inl h))
    · rcases charListLe_total as bs with ht | ht
      · exact Or.inl ((charListLe_cons_iff a b as bs).mpr (Or.inr ⟨h, ht⟩))
      · exact Or.inr ((charListLe_cons_iff b a bs as).mpr (Or.inr ⟨h.symm, ht⟩))
    · exact Or.inr ((charListLe_cons_iff b a bs as).mpr (Or.inl h))

theorem charListLe_trans :
    ∀ a b c : List Char, charListLe a b = true → charListLe b c = true →
      charListLe a c = true
  | [], _, _, _, _ => rfl
  | _ :: _, [], _, h1, _ => by simp [charListLe] at h1
  | _ :: _, _ :: _, [], _, h2 => by simp [charListLe] at h2
  | a :: as, b :: bs, c :: cs, h1, h2 => by
    rcases (charListLe_cons_iff a b as bs).mp h1 with hab | ⟨hab, htab⟩ <;>
      rcases (charListLe_cons_iff b c bs cs).mp h2 with hbc | ⟨hbc, htbc⟩
    · exact (charListLe_cons_iff a c as cs).mpr (Or.inl (Nat.lt_trans hab hbc))
    · exact (charListLe_cons_iff a c as cs).mpr (Or.inl (hbc ▸ hab))
    · exact (charListLe_cons_iff a c as cs).mpr (Or.inl (hab ▸ hbc))
    · exact (charListLe_cons_iff a c as cs).mpr
        (Or.inr ⟨hab.trans hbc, charListLe_trans as bs cs htab htbc⟩)

theorem charListLe_antisymm :
    ∀ a b : List Char, charListLe a b = true → charListLe b a = true → a = b
  | [], [], _, _ => rfl
  | [], _ :: _, _, h2 => by simp [charListLe] at h2
  | _ :: _, [], h1, _ => by simp [charListLe] at h1
  | a :: as, b :: bs, h1, h2 => by
    rcases (charListLe_cons_iff a b as bs).mp h1 with hab | ⟨hab, htab⟩ <;>
      rcases (charListLe_cons_iff b a bs as).mp h2 with hba | ⟨hba, htba⟩ <;>
      try omega
    have hc : a = b := by
      rw [← Char.ofNat_toNat a, ← Char.ofNat_toNat b, hab]
    rw [hc, charListLe_antisymm as bs htab htba]

theorem strLe_total (a b : String) : strLe a b = true ∨ strLe b a = true :=
  charListLe_total a.data b.data

theorem strLe_trans {a b c : String} (h1 : strLe a b = true) (h2 : strLe b c = true) :
    strLe a c = true :=
  charListLe_trans a.data b.data c.data h1 h2

theorem strLe_antisymm {a b : String} (h1 : strLe a b = true) (h2 : strLe b a = true) :
    a = b := by
  cases a; cases b
  exact congrArg String.mk (charListLe_antisymm _ _ h1 h2)

theorem keyLe_total (p q : String × String) : keyLe p q ∨ keyLe q p :=
  strLe_total p.1 q.1

theorem keyLe_trans {p q r : String × String} (h1 : keyLe p q) (h2 : keyLe q r) :
    keyLe p r :=
  strLe_trans h1 h2

theorem insertByKey_perm (p : String × String) :
    ∀ l : List (String × String), (insertByKey p l).Perm (p :: l)
  | [] => List.Perm.refl _
  | q :: l => by
    simp only [insertByKey]
    split
    · exact List.Perm.refl _
    · exact ((insertByKey_perm p l).cons q).trans (List.Perm.swap p q l)

theorem sortByKey_perm : ∀ l : List (String × String), (sortByKey l).Perm l
  | [] => List.Perm.refl _
  | p :: l => (insertByKey_perm p (sortByKey l)).trans ((sortByKey_perm l).cons p)

theorem insertByKey_sorted (p : String × String) :
    ∀ l : List (String × String), l.Pairwise keyLe →
      (insertByKey p l).Pairwise keyLe
  | [], _ => List.pairwise_singleton keyLe p
  | q :: l, h => by
    rcases List.pairwise_cons.mp h with ⟨hq, hl⟩
    simp only [insertByKey]
    by_cases hle : strLe p.1 q.1 = true
    case pos =>
      rw [if_pos hle]
      refine List.pairwise_cons.mpr ⟨?_, h⟩
      intro x hx
      rcases List.mem_cons.mp hx with rfl | hx
      · exact hle
      · exact keyLe_trans hle (hq x hx)
    case neg =>
      rw [if_neg hle]
      refine List.pairwise_cons.mpr ⟨?_, insertByKey_sorted p l hl⟩
      intro x hx
      have hx2 : x ∈ p :: l := (insertByKey_perm p l).mem_iff.mp hx
      rcases List.mem_cons.mp hx2 with rfl | hx3
      · rcases keyLe_total x q with hpq | hqp
        · exact absurd hpq hle
        · exact hqp
      · exact hq x hx3

theorem sortByKey_sorted : ∀ l : List (String × String), (sortByKey l).Pairwise keyLe
  | [] => List.Pairwise.nil
  | p :: l => insertByKey_sorted p (sortByKey l) (sortByKey_sorted l)

/-- Two key-sorted association lists that are permutations of each other and
have pairwise-distinct keys are equal. -/
theorem sorted_keyUnique_eq :
    ∀ l1 l2 : List (String × String), l1.Perm l2 →
      l1.Pairwise keyLe → l2.Pairwise keyLe →
      (l1.map Prod.fst).Nodup → l1 = l2
  | [], l2, hp, _, _, _ => (hp.nil_eq).symm ▸ rfl
  | p :: l1, [], hp, _, _, _ => absurd hp.symm.nil_eq (by simp)
  | p :: l1, q :: l2, hp, h1, h2, hnd => by
    by_cases hpq : p = q
    · subst hpq
      have htail := hp.cons_inv
      have := sorted_keyUnique_eq l1 l2 htail
        (List.pairwise_cons.mp h1).2 (List.pairwise_cons.mp h2).2
        (by simpa using (List.nodup_cons.mp (by simpa using hnd)).2)
      rw [this]
    · exfalso
      have hpmem : p ∈ q :: l2 := hp.mem_iff.mp (List.mem_cons_self p l1)
      have hpl2 : p ∈ l2 := by
        rcases List.mem_cons.mp hpmem with h | h
        · exact absurd h hpq
        · exact h
      have hqmem : q ∈ p :: l1 := hp.symm.mem_iff.mp (List.mem_cons_self q l2)
      have hql1 : q ∈ l1 := by
        rcases List.mem_cons.mp hqmem with h | h
        · exact absurd h.symm hpq
        · exact h
      have hple : keyLe p q := (List.pairwise_cons.mp h1).1 q hql1
      have hqle : keyLe q p := (List.pairwise_cons.mp h2).1 p hpl2
      have hkeys : p.1 = q.1 := strLe_antisymm hple hqle
      have hnotin : p.1 ∉ l1.map Prod.fst := (List.nodup_cons.mp (by simpa using hnd)).1
      exact hnotin (hkeys ▸ List.mem_map_of_mem Prod.fst hql1)

/-- Sorting by key is invariant under permutation of the input, provided the
keys are pairwise distinct. -/
theorem sortByKey_eq_of_perm (l1 l2 : List (String × String))
    (hp : l1.Perm l2) (hnd : (l2.map Prod.fst).Nodup) :
    sortByKey l1 = sortByKey l2 := by
  have hperm : (sortByKey l1).Perm (sortByKey l2) :=
    (sortByKey_perm l1).trans (hp.trans (sortByKey_perm l2).symm)
  refine sorted_keyUnique_eq _ _ hperm (sortByKey_sorted l1) (sortByKey_sorted l2) ?_
  have : ((sortByKey l1).map Prod.fst).Perm (l2.map Prod.fst) :=
    ((sortByKey_perm l1).trans hp).map Prod.fst
  exact this.nodup_iff.mpr hnd

/-! Store lemmas -/

theorem dbGet_dbPut_self (db : List (String × Entry)) (k : String) (e : Entry) :
    dbGet (dbPut db k e) k = some e := by
  simp [dbGet, dbPut]

theorem dbPut_countP (db : List (String × Entry)) (k : String) (e : Entry) :
    (dbPut db k e).countP (fun p => p.1 == k) = 1 := by
  simp only [dbPut, List.countP_cons]
  have : (db.filter (fun p => !(p.1 == k))).countP (fun p => p.1 == k) = 0 := by
    rw [List.countP_eq_zero]
    intro a ha
    have := (List.mem_filter.mp ha).2
    simpa using this
  simp [this]

theorem overlayGet_overlayPut_self (files : List (String × FileEntry)) (k : String)
    (e : FileEntry) : overlayGet (overlayPut files k e) k = some e := by
  simp [overlayGet, overlayPut]

theorem find?_append_left_none {α : Type} (p : α → Bool) :
    ∀ l1 l2 : List α, l1.any p = false → (l1 ++ l2).find? p = l2.find? p
  | [], _, _ => rfl
  | a :: l1, l2, h => by
    have hpa : ¬p a = true := List.any_eq_false.mp h a (List.mem_cons_self a l1)
    have hrest : l1.any p = false := by
      rw [List.any_eq_false]
      intro x hx
      exact List.any_eq_false.mp h x (List.mem_cons_of_mem a hx)
    rw [List.cons_append, List.find?_cons_of_neg _ hpa,
      find?_append_left_none p l1 l2 hrest]

/-- The model of the SQLite layer round-trips: a put followed by a get of the
same key returns the stored row (sanity check for the embedding). -/
theorem db_roundtrip_example :
    dbGet (dbPut [] "k" storedEntry) "k" = some storedEntry :=
  dbGet_dbPut_self [] "k" storedEntry

/-- FIPS 180-4 test vector, validating the SHA-256 embedding. -/
theorem sha256_test_vector_abc :
    sha256HexOfString "abc" =
      "ba7816bf8f01cfea414140de5dae2223b00361a396177a9cb410ff61f20015ad" := by
  decide

/-- SHA-256 of the empty message, validating the padding path. -/
theorem sha256_test_vector_empty :
    sha256HexOfString "" =
      "e3b0c44298fc1c149afbf4c8996fb92427ae41e4649b934ca495991b7852b855" := by
  decide

/-- The canonical string matches the output of the Python
`json.dumps(request_data, sort_keys=True)` on the same request. -/
theorem canonical_string_example :
    (hash_request "POST" "/v1/thing" (strBytes "\x7b\"a\":1\x7d") "https://api.openai.com/v1").2 =
      "\x7b\"body\": \"\x7b\\\"a\\\":1\x7d\", \"method\": \"POST\", \"path\": \"/v1/thing\", \"redirect_url\": \"https://api.openai.com/v1\"\x7d" := by
  decide

/-- Lossy decoding drops an invalid byte and keeps the valid sequences
(cross-checked against the CPython decoder). -/
theorem decode_ignore_example :
    decodeUtf8Ignore [104, 105, 255, 226, 130, 172] = "hi€" := by
  decide

/-! ## Claims -/

/-- C6: for the persistent store, put is insert-or-replace: after any
non-empty sequence of puts for the same key, exactly one row exists for that
key and get returns the status, headers and body of the most recent put. -/
theorem db_put_insert_or_replace :
    ∀ (es : List Entry) (h : es ≠ []) (db : List (String × Entry)) (k : String),
      dbGet (es.foldl (fun d e => dbPut d k e) db) k = some (es.getLast h) ∧
      (es.foldl (fun d e => dbPut d k e) db).countP (fun p => p.1 == k) = 1
  | [], h, _, _ => absurd rfl h
  | [e], _, db, k => ⟨dbGet_dbPut_self db k e, dbPut_countP db k e⟩
  | e :: e2 :: es, _, db, k =>
    db_put_insert_or_replace (e2 :: es) (by simp) (dbPut db k e) k

/-- Witness for C6 at a concrete pair of puts with different content. -/
theorem db_put_insert_or_replace_witness :
    dbGet ([(⟨204, [], []⟩ : Entry), storedEntry].foldl (fun d e => dbPut d "k" e) []) "k" =
      some storedEntry ∧
    ([(⟨204, [], []⟩ : Entry), storedEntry].foldl (fun d e => dbPut d "k" e) []).countP
      (fun p => p.1 == "k") = 1 :=
  db_put_insert_or_replace [⟨204, [], []⟩, storedEntry] (by simp) [] "k"

/-- C9 counterexample: the value `READ` is none of empty, `read`, `write`,
yet construction succeeds (the source lowercases the value first), so
"for any other value, construction fails" is false as stated. -/
theorem file_cache_env_case_insensitive_counterexample :
    mkFileCacheMode (some "READ") = Except.ok "read" ∧
    ¬("READ" = "" ∨ "READ" = "read" ∨ "READ" = "write") := by
  decide

/-- C9 (amended): the toggle value is ASCII-lowercased first; construction
succeeds exactly when the lowercased value (absent treated as empty) is
empty, `read` or `write`, and fails with the configuration error
otherwise. -/
theorem file_cache_mode_validation (v : Option String) :
    (asciiLower (v.getD "") = "" ∨ asciiLower (v.getD "") = "read" ∨
        asciiLower (v.getD "") = "write" →
      mkFileCacheMode v = Except.ok (asciiLower (v.getD ""))) ∧
    (¬(asciiLower (v.getD "") = "" ∨ asciiLower (v.getD "") = "read" ∨
        asciiLower (v.getD "") = "write") →
      mkFileCacheMode v = Except.error ("Invalid FILE_CACHE value: " ++
        asciiLower (v.getD "") ++ ". Must be a valid mode string")) := by
  constructor <;> intro h <;> simp [mkFileCacheMode, h]

/-- Witness for C9 (amended): one accepted and one rejected value. -/
theorem file_cache_mode_validation_witness :
    mkFileCacheMode (some "Write") = Except.ok "write" ∧
    mkFileCacheMode (some "bogus") =
      Except.error "Invalid FILE_CACHE value: bogus. Must be a valid mode string" :=
  ⟨(file_cache_mode_validation (some "Write")).1 (by decide),
   (file_cache_mode_validation (some "bogus")).2 (by decide)⟩

/-- C7: the client hook is idempotent: on a client without the marker header
the first call stores the original base endpoint in the header and rewrites
the base endpoint to the proxy; calling again on the result finds the
marker, verifies the endpoint and returns the client unchanged; both calls
succeed. -/
theorem hook_openai_idempotent (port : Nat) (c : Client)
    (h : c.custom_headers.any (fun p => p.1 == REDIRECT_HEADER) = false) :
    hook_openai port c =
      Except.ok ⟨proxyBaseUrl port, dictSet c.custom_headers REDIRECT_HEADER c.base_url⟩ ∧
    dictGet (dictSet c.custom_headers REDIRECT_HEADER c.base_url) REDIRECT_HEADER =
      some c.base_url ∧
    hook_openai port ⟨proxyBaseUrl port, dictSet c.custom_headers REDIRECT_HEADER c.base_url⟩ =
      Except.ok ⟨proxyBaseUrl port, dictSet c.custom_headers REDIRECT_HEADER c.base_url⟩ := by
  have hset : dictSet c.custom_headers REDIRECT_HEADER c.base_url =
      c.custom_headers ++ [(REDIRECT_HEADER, c.base_url)] := by
    simp only [dictSet]
    rw [if_neg]
    simp [h]
  refine ⟨?_, ?_, ?_⟩
  · simp [hook_openai, h]
  · rw [hset]
    simp only [dictGet]
    rw [find?_append_left_none _ _ _ h]
    simp
  · simp [hook_openai, hset, List.any_append]

/-- Witness for C7 on a concrete client. -/
theorem hook_openai_idempotent_witness :
    hook_openai 1234 ⟨"https://api.openai.com/v1/", []⟩ =
      Except.ok ⟨proxyBaseUrl 1234,
        dictSet [] REDIRECT_HEADER "https://api.openai.com/v1/"⟩ ∧
    dictGet (dictSet [] REDIRECT_HEADER "https://api.openai.com/v1/") REDIRECT_HEADER =
      some "https://api.openai.com/v1/" ∧
    hook_openai 1234 ⟨proxyBaseUrl 1234,
        dictSet [] REDIRECT_HEADER "https://api.openai.com/v1/"⟩ =
      Except.ok ⟨proxyBaseUrl 1234,
        dictSet [] REDIRECT_HEADER "https://api.openai.com/v1/"⟩ :=
  hook_openai_idempotent 1234 ⟨"https://api.openai.com/v1/", []⟩ (by decide)

/-- C8: a request without the routing header gets a 400 response with a
descriptive body, and the handler touches neither store, makes no upstream
call, and its response does not depend on the mode, the stores or the
environment. -/
theorem missing_redirect_header_400 (file_cache_mode : String) (env : Env)
    (db : List (String × Entry)) (files : List (String × FileEntry))
    (method path_qs : String) (reqHeaders : List (String × String)) (body : List Nat)
    (h : headersGetCI reqHeaders REDIRECT_HEADER = none) :
    handle_request file_cache_mode env db files method path_qs reqHeaders body =
      { response := .ok ⟨400, [], strBytes "Missing X-Cache-Redirect-To header"⟩
        db := db, files := files, calls := [], log := [], ci := [] } ∧
    ∀ (mode2 : String) (env2 : Env) (db2 : List (String × Entry))
      (files2 : List (String × FileEntry)),
      handle_request mode2 env2 db2 files2 method path_qs reqHeaders body =
        { response := .ok ⟨400, [], strBytes "Missing X-Cache-Redirect-To header"⟩
          db := db2, files := files2, calls := [], log := [], ci := [] } := by
  constructor
  · simp [handle_request, h]
  · intro mode2 env2 db2 files2
    simp [handle_request, h]

/-- Witness for C8 on a concrete request without the header. -/
theorem missing_redirect_header_400_witness :
    handle_request "" envOk [] [] "GET" "/p" [("Host", "localhost")] [] =
      { response := .ok ⟨400, [], strBytes "Missing X-Cache-Redirect-To header"⟩
        db := [], files := [], calls := [], log := [], ci := [] } :=
  (missing_redirect_header_400 "" envOk [] [] "GET" "/p" [("Host", "localhost")] []
    (by rfl)).1

/-- C4: key derivation is a pure function of exactly the four inputs —
calling it twice yields identical keys and canonical strings — and the
canonical dict is serialized in sorted field order, so any insertion order
of the same four fields produces the same canonical string and therefore
the same hex key. -/
theorem hash_request_deterministic_sorted (method path : String) (body : List Nat)
    (redirect_url : String) (l : List (String × String))
    (hperm : l.Perm (requestData method path body redirect_url)) :
    hash_request method path body redirect_url =
      hash_request method path body redirect_url ∧
    jsonDumpsSortKeys l = (hash_request method path body redirect_url).2 ∧
    sha256HexOfString (jsonDumpsSortKeys l) =
      (hash_request method path body redirect_url).1 := by
  have hnd : ((requestData method path body redirect_url).map Prod.fst).Nodup := by
    simp [requestData]
  have hsort : sortByKey l = sortByKey (requestData method path body redirect_url) :=
    sortByKey_eq_of_perm l _ hperm hnd
  refine ⟨rfl, ?_, ?_⟩
  · simp only [hash_request, jsonDumpsSortKeys, hsort]
  · simp only [hash_request, jsonDumpsSortKeys, sha256HexOfString, hsort]

/-- Witness for C4: the four fields given in reverse insertion order still
produce the canonical string and key of the source insertion order. -/
theorem hash_request_deterministic_sorted_witness :
    ([("redirect_url", "http://upstream"), ("body", ""), ("path", "/p"),
       ("method", "GET")] : List (String × String)).Perm
      (requestData "GET" "/p" [] "http://upstream") ∧
    (hash_request "GET" "/p" [] "http://upstream" =
      hash_request "GET" "/p" [] "http://upstream" ∧
     jsonDumpsSortKeys [("redirect_url", "http://upstream"), ("body", ""),
       ("path", "/p"), ("method", "GET")] =
       (hash_request "GET" "/p" [] "http://upstream").2 ∧
     sha256HexOfString (jsonDumpsSortKeys [("redirect_url", "http://upstream"),
       ("body", ""), ("path", "/p"), ("method", "GET")]) =
       (hash_request "GET" "/p" [] "http://upstream").1) :=
  ⟨by decide,
   hash_request_deterministic_sorted "GET" "/p" [] "http://upstream"
     [("redirect_url", "http://upstream"), ("body", ""), ("path", "/p"),
      ("method", "GET")] (by decide)⟩

/-- C2: with the overlay in read-only mode, every request consults only the
file overlay: no upstream call is made and both stores are untouched; an
overlay hit replays the stored entry; an overlay miss is a fatal
`RuntimeError` carrying the derived key and the canonical string; and the
outcome does not depend on the persistent store, the upstream, or any other
part of the environment apart from the `GITHUB_OUTPUT` reporting channel. -/
theorem read_mode_overlay_only (env : Env) (db : List (String × Entry))
    (files : List (String × FileEntry)) (method path_qs : String)
    (reqHeaders : List (String × String)) (body : List Nat) (redirect_url : String)
    (hdr : headersGetCI reqHeaders REDIRECT_HEADER = some redirect_url)
    (hne : ¬redirect_url = "") :
    (handle_request "read" env db files method path_qs reqHeaders body).calls = [] ∧
    (handle_request "read" env db files method path_qs reqHeaders body).db = db ∧
    (handle_request "read" env db files method path_qs reqHeaders body).files = files ∧
    (∀ fe, overlayGet files (hash_request method path_qs body redirect_url).1 = some fe →
      (handle_request "read" env db files method path_qs reqHeaders body).response =
        .ok (replayResponse fe.status_code fe.headers fe.body)) ∧
    (overlayGet files (hash_request method path_qs body redirect_url).1 = none →
      (handle_request "read" env db files method path_qs reqHeaders body).response =
        .error (.runtimeError ("Cache miss in read mode for key: " ++
          (hash_request method path_qs body redirect_url).1 ++ "\n\n" ++
          (hash_request method path_qs body redirect_url).2))) ∧
    (∀ (env2 : Env) (db2 : List (String × Entry)),
      (handle_request "read" env2 db2 files method path_qs reqHeaders body).response =
        (handle_request "read" env db files method path_qs reqHeaders body).response) := by
  rcases hov : overlayGet files (hash_request method path_qs body redirect_url).1 with _ | fe
  · refine ⟨?_, ?_, ?_, ?_, ?_, ?_⟩ <;>
      simp [handle_request, hdr, hne, hov]
  · refine ⟨?_, ?_, ?_, ?_, ?_, ?_⟩ <;>
      simp [handle_request, hdr, hne, hov]

/-- Witness for C2: a concrete overlay hit is replayed, and on the same
request with an empty overlay the handler fails with the diagnostic error;
in both cases nothing is forwarded. -/
theorem read_mode_overlay_only_witness :
    (handle_request "read" envOk [] [(demoKey, storedFileEntry)] "GET" "/p" stubHeaders []).calls = [] ∧
    (handle_request "read" envOk [] [(demoKey, storedFileEntry)] "GET" "/p" stubHeaders []).response =
      .ok (replayResponse storedFileEntry.status_code storedFileEntry.headers
        storedFileEntry.body) ∧
    (handle_request "read" envOk [] [] "GET" "/p" stubHeaders []).response =
      .error (.runtimeError ("Cache miss in read mode for key: " ++
        (hash_request "GET" "/p" [] "http://upstream").1 ++ "\n\n" ++
        (hash_request "GET" "/p" [] "http://upstream").2)) := by
  have h1 := read_mode_overlay_only envOk [] [(demoKey, storedFileEntry)] "GET" "/p"
    stubHeaders [] "http://upstream" (by decide) (by decide)
  have h2 := read_mode_overlay_only envOk [] [] "GET" "/p"
    stubHeaders [] "http://upstream" (by decide) (by decide)
  refine ⟨h1.1, ?_, ?_⟩
  · exact h1.2.2.2.1 storedFileEntry (by simp [overlayGet, demoKey])
  · exact h2.2.2.2.2.1 rfl

/-- C1: on a forwarded (cache-miss) request outside read-only mode, a
persistent-store entry is created for the derived key iff the upstream
status is 2xx; an overlay entry is created iff additionally write-through is
active; the streamed upstream response is relayed to the caller either way;
and after a non-2xx response both stores are unchanged, so the identical
follow-up request forwards live again. -/
theorem only_success_cached (file_cache_mode : String) (env : Env)
    (db : List (String × Entry)) (files : List (String × FileEntry))
    (method path_qs : String) (reqHeaders : List (String × String)) (body : List Nat)
    (redirect_url : String)
    (hdr : headersGetCI reqHeaders REDIRECT_HEADER = some redirect_url)
    (hne : ¬redirect_url = "")
    (hmode : ¬file_cache_mode = "read")
    (hfs : env.fsError = none)
    (hmiss : dbGet db (hash_request method path_qs body redirect_url).1 = none)
    (hfilemiss : overlayGet files (hash_request method path_qs body redirect_url).1 = none) :
    ((dbGet (handle_request file_cache_mode env db files method path_qs reqHeaders body).db
        (hash_request method path_qs body redirect_url).1).isSome = true ↔
      (200 ≤ (forward_request env.upstream method path_qs reqHeaders body redirect_url).status ∧
       (forward_request env.upstream method path_qs reqHeaders body redirect_url).status < 300)) ∧
    ((overlayGet (handle_request file_cache_mode env db files method path_qs reqHeaders body).files
        (hash_request method path_qs body redirect_url).1).isSome = true ↔
      (file_cache_mode = "write" ∧
       200 ≤ (forward_request env.upstream method path_qs reqHeaders body redirect_url).status ∧
       (forward_request env.upstream method path_qs reqHeaders body redirect_url).status < 300)) ∧
    (handle_request file_cache_mode env db files method path_qs reqHeaders body).response =
      .ok (forward_request env.upstream method path_qs reqHeaders body redirect_url).streamed ∧
    (handle_request file_cache_mode env db files method path_qs reqHeaders body).calls =
      [(forward_request env.upstream method path_qs reqHeaders body redirect_url).call] ∧
    (¬(200 ≤ (forward_request env.upstream method path_qs reqHeaders body redirect_url).status ∧
        (forward_request env.upstream method path_qs reqHeaders body redirect_url).status < 300) →
      (handle_request file_cache_mode env db files method path_qs reqHeaders body).db = db ∧
      (handle_request file_cache_mode env db files method path_qs reqHeaders body).files = files ∧
      (handle_request file_cache_mode env
          (handle_request file_cache_mode env db files method path_qs reqHeaders body).db
          (handle_request file_cache_mode env db files method path_qs reqHeaders body).files
          method path_qs reqHeaders body).calls =
        [(forward_request env.upstream method path_qs reqHeaders body redirect_url).call]) := by
  by_cases h2xx : 200 ≤ (forward_request env.upstream method path_qs reqHeaders body redirect_url).status ∧
      (forward_request env.upstream method path_qs reqHeaders body redirect_url).status < 300
  · by_cases hw : file_cache_mode = "write"
    · refine ⟨?_, ?_, ?_, ?_, ?_⟩ <;>
        simp [handle_request, hdr, hne, hmode, hmiss, h2xx, hw,
          save_file_cached_response, hfs, dbGet_dbPut_self, overlayGet_overlayPut_self]
    · refine ⟨?_, ?_, ?_, ?_, ?_⟩ <;>
        simp [handle_request, hdr, hne, hmode, hmiss, hfilemiss, h2xx, hw,
          dbGet_dbPut_self]
  · refine ⟨?_, ?_, ?_, ?_, ?_⟩ <;>
      simp [handle_request, hdr, hne, hmode, hmiss, hfilemiss, h2xx]

/-- Witness for C1: a concrete forwarded request whose stub upstream answers
500 is relayed but not cached, and the identical follow-up request forwards
again. -/
theorem only_success_cached_witness :
    ((dbGet (handle_request "" envErr [] [] "GET" "/p" stubHeaders []).db
        (hash_request "GET" "/p" [] "http://upstream").1).isSome = true ↔
      (200 ≤ (forward_request envErr.upstream "GET" "/p" stubHeaders [] "http://upstream").status ∧
       (forward_request envErr.upstream "GET" "/p" stubHeaders [] "http://upstream").status < 300)) ∧
    ((overlayGet (handle_request "" envErr [] [] "GET" "/p" stubHeaders []).files
        (hash_request "GET" "/p" [] "http://upstream").1).isSome = true ↔
      ("" = "write" ∧
       200 ≤ (forward_request envErr.upstream "GET" "/p" stubHeaders [] "http://upstream").status ∧
       (forward_request envErr.upstream "GET" "/p" stubHeaders [] "http://upstream").status < 300)) ∧
    (handle_request "" envErr [] [] "GET" "/p" stubHeaders []).response =
      .ok (forward_request envErr.upstream "GET" "/p" stubHeaders [] "http://upstream").streamed ∧
    (handle_request "" envErr [] [] "GET" "/p" stubHeaders []).calls =
      [(forward_request envErr.upstream "GET" "/p" stubHeaders [] "http://upstream").call] ∧
    (¬(200 ≤ (forward_request envErr.upstream "GET" "/p" stubHeaders [] "http://upstream").status ∧
        (forward_request envErr.upstream "GET" "/p" stubHeaders [] "http://upstream").status < 300) →
      (handle_request "" envErr [] [] "GET" "/p" stubHeaders []).db = [] ∧
      (handle_request "" envErr [] [] "GET" "/p" stubHeaders []).files = [] ∧
      (handle_request "" envErr
          (handle_request "" envErr [] [] "GET" "/p" stubHeaders []).db
          (handle_request "" envErr [] [] "GET" "/p" stubHeaders []).files
          "GET" "/p" stubHeaders []).calls =
        [(forward_request envErr.upstream "GET" "/p" stubHeaders [] "http://upstream").call]) :=
  only_success_cached "" envErr [] [] "GET" "/p" stubHeaders [] "http://upstream"
    (by decide) (by decide) (by decide) rfl rfl rfl

/-- C3 counterexample: in a concrete forwarded cache miss the stub upstream
answers 200 with `Transfer-Encoding` and `Content-Length` headers; the
entry persisted for the derived key still contains both, so the claim that
the framing headers are stripped before the response headers are persisted
is false on the code. -/
theorem persisted_headers_not_stripped_counterexample :
    ∃ e : Entry,
      dbGet (handle_request "" envOk [] [] "GET" "/p" stubHeaders []).db
          (hash_request "GET" "/p" [] "http://upstream").1 = some e ∧
      ("Transfer-Encoding", "chunked") ∈ e.headers ∧
      ("Content-Length", "999") ∈ e.headers := by
  have hdr : headersGetCI stubHeaders REDIRECT_HEADER = some "http://upstream" := by
    decide
  have hmiss : dbGet [] (hash_request "GET" "/p" [] "http://upstream").1 = none := rfl
  refine ⟨⟨200,
    [("Content-Type", "application/json"), ("Transfer-Encoding", "chunked"),
     ("Content-Length", "999")], strBytes "\x7b\"ok\":true\x7d"⟩, ?_, ?_, ?_⟩
  · simp [handle_request, hdr, hmiss, envOk, forward_request, stubOk, dbGet_dbPut_self]
  · simp
  · simp

/-- C3 (amended): on a forwarded cache miss the transport-framing headers
are stripped from the upstream headers before they are relayed downstream,
but the cache entry persists the upstream response headers verbatim,
unstripped; the framing headers are instead dropped from the stored headers
when a hit is replayed. -/
theorem forward_strips_downstream_persists_verbatim (file_cache_mode : String)
    (env : Env) (db : List (String × Entry)) (files : List (String × FileEntry))
    (method path_qs : String) (reqHeaders : List (String × String)) (body : List Nat)
    (redirect_url : String)
    (hdr : headersGetCI reqHeaders REDIRECT_HEADER = some redirect_url)
    (hne : ¬redirect_url = "")
    (hmode : ¬file_cache_mode = "read")
    (hmiss : dbGet db (hash_request method path_qs body redirect_url).1 = none) :
    (handle_request file_cache_mode env db files method path_qs reqHeaders body).response =
      .ok ⟨(env.upstream ⟨method, rstripSlash redirect_url ++ path_qs,
              forwardHeadersOf reqHeaders, body⟩).status,
           cleanFramingHeaders (env.upstream ⟨method, rstripSlash redirect_url ++ path_qs,
              forwardHeadersOf reqHeaders, body⟩).headers,
           (env.upstream ⟨method, rstripSlash redirect_url ++ path_qs,
              forwardHeadersOf reqHeaders, body⟩).body⟩ ∧
    (200 ≤ (env.upstream ⟨method, rstripSlash redirect_url ++ path_qs,
        forwardHeadersOf reqHeaders, body⟩).status ∧
     (env.upstream ⟨method, rstripSlash redirect_url ++ path_qs,
        forwardHeadersOf reqHeaders, body⟩).status < 300 →
      dbGet (handle_request file_cache_mode env db files method path_qs reqHeaders body).db
          (hash_request method path_qs body redirect_url).1 =
        some ⟨(env.upstream ⟨method, rstripSlash redirect_url ++ path_qs,
                forwardHeadersOf reqHeaders, body⟩).status,
              (env.upstream ⟨method, rstripSlash redirect_url ++ path_qs,
                forwardHeadersOf reqHeaders, body⟩).headers,
              (env.upstream ⟨method, rstripSlash redirect_url ++ path_qs,
                forwardHeadersOf reqHeaders, body⟩).body⟩) := by
  constructor
  · by_cases h2xx : 200 ≤ (env.upstream ⟨method, rstripSlash redirect_url ++ path_qs,
        forwardHeadersOf reqHeaders, body⟩).status ∧
        (env.upstream ⟨method, rstripSlash redirect_url ++ path_qs,
          forwardHeadersOf reqHeaders, body⟩).status < 300
    · by_cases hw : file_cache_mode = "write" <;>
        simp [handle_request, forward_request, hdr, hne, hmode, hmiss, h2xx, hw]
    · simp [handle_request, forward_request, hdr, hne, hmode, hmiss, h2xx]
  · intro h2xx
    by_cases hw : file_cache_mode = "write" <;>
      simp [handle_request, forward_request, hdr, hne, hmode, hmiss, h2xx, hw,
        dbGet_dbPut_self]

/-- Witness for C3 (amended) on the concrete 200 scenario: relayed headers
are the stripped ones, the persisted entry keeps the verbatim headers. -/
theorem forward_strips_downstream_persists_verbatim_witness :
    (handle_request "" envOk [] [] "GET" "/p" stubHeaders []).response =
      .ok ⟨(envOk.upstream ⟨"GET", rstripSlash "http://upstream" ++ "/p",
              forwardHeadersOf stubHeaders, []⟩).status,
           cleanFramingHeaders (envOk.upstream ⟨"GET", rstripSlash "http://upstream" ++ "/p",
              forwardHeadersOf stubHeaders, []⟩).headers,
           (envOk.upstream ⟨"GET", rstripSlash "http://upstream" ++ "/p",
              forwardHeadersOf stubHeaders, []⟩).body⟩ ∧
    (200 ≤ (envOk.upstream ⟨"GET", rstripSlash "http://upstream" ++ "/p",
        forwardHeadersOf stubHeaders, []⟩).status ∧
     (envOk.upstream ⟨"GET", rstripSlash "http://upstream" ++ "/p",
        forwardHeadersOf stubHeaders, []⟩).status < 300 →
      dbGet (handle_request "" envOk [] [] "GET" "/p" stubHeaders []).db
          (hash_request "GET" "/p" [] "http://upstream").1 =
        some ⟨(envOk.upstream ⟨"GET", rstripSlash "http://upstream" ++ "/p",
                forwardHeadersOf stubHeaders, []⟩).status,
              (envOk.upstream ⟨"GET", rstripSlash "http://upstream" ++ "/p",
                forwardHeadersOf stubHeaders, []⟩).headers,
              (envOk.upstream ⟨"GET", rstripSlash "http://upstream" ++ "/p",
                forwardHeadersOf stubHeaders, []⟩).body⟩) :=
  forward_strips_downstream_persists_verbatim "" envOk [] [] "GET" "/p" stubHeaders []
    "http://upstream" (by decide) (by decide) (by decide) rfl

theorem cleanFraming_no_CL (hs : List (String × String)) :
    (cleanFramingHeaders hs).any (fun p => p.1 == "Content-Length") = false := by
  rw [List.any_eq_false]
  intro p hp hbeq
  rcases List.mem_filter.mp hp with ⟨_, hcond⟩
  have hp1 : p.1 = "Content-Length" := by simpa using hbeq
  rw [hp1] at hcond
  exact absurd hcond (by decide)

theorem dictSet_append_of_no_key (hs : List (String × String)) (k v : String)
    (h : hs.any (fun p => p.1 == k) = false) :
    dictSet hs k v = hs ++ [(k, v)] := by
  simp only [dictSet]
  rw [if_neg]
  simp [h]

theorem dictGet_append_single (hs : List (String × String)) (k v : String)
    (h : hs.any (fun p => p.1 == k) = false) :
    dictGet (hs ++ [(k, v)]) k = some v := by
  simp only [dictGet]
  rw [find?_append_left_none _ _ _ h]
  simp

/-- C5: on every cache hit — persistent store in standard mode, overlay in
read-only mode — the response is rebuilt from the stored entry via the
replay block, which drops the stored transfer-encoding, content-length and
content-encoding headers and sets a Content-Length equal to the length of
the actual stored body, never a stored length value. -/
theorem replay_derives_content_length (file_cache_mode : String) (env : Env)
    (db : List (String × Entry)) (files : List (String × FileEntry))
    (method path_qs : String) (reqHeaders : List (String × String)) (body : List Nat)
    (redirect_url : String)
    (hdr : headersGetCI reqHeaders REDIRECT_HEADER = some redirect_url)
    (hne : ¬redirect_url = "") :
    (∀ e : Entry, ¬file_cache_mode = "read" →
      dbGet db (hash_request method path_qs body redirect_url).1 = some e →
      (handle_request file_cache_mode env db files method path_qs reqHeaders body).response =
        .ok (replayResponse e.status_code e.headers e.body)) ∧
    (∀ fe : FileEntry,
      overlayGet files (hash_request method path_qs body redirect_url).1 = some fe →
      (handle_request "read" env db files method path_qs reqHeaders body).response =
        .ok (replayResponse fe.status_code fe.headers fe.body)) ∧
    (∀ (s : Nat) (hs : List (String × String)) (b : List Nat),
      (replayResponse s hs b).status = s ∧
      (replayResponse s hs b).body = b ∧
      dictGet (replayResponse s hs b).headers "Content-Length" =
        some (toString b.length) ∧
      (∀ p ∈ (replayResponse s hs b).headers,
        ¬asciiLower p.1 = "transfer-encoding" ∧
        ¬asciiLower p.1 = "content-encoding" ∧
        (asciiLower p.1 = "content-length" → p.2 = toString b.length))) := by
  refine ⟨?_, ?_, ?_⟩
  · intro e hm hget
    simp [handle_request, hdr, hne, hm, hget]
  · intro fe hget
    simp [handle_request, hdr, hne, hget]
  · intro s hs b
    have happ : (replayResponse s hs b).headers =
        cleanFramingHeaders hs ++ [("Content-Length", toString b.length)] := by
      simp only [replayResponse]
      exact dictSet_append_of_no_key _ _ _ (cleanFraming_no_CL hs)
    refine ⟨rfl, rfl, ?_, ?_⟩
    · rw [happ]
      exact dictGet_append_single _ _ _ (cleanFraming_no_CL hs)
    · intro p hp
      rw [happ] at hp
      rcases List.mem_append.mp hp with hp | hp
      · rcases List.mem_filter.mp hp with ⟨_, hcond⟩
        have hnotin : asciiLower p.1 ∉
            ["transfer-encoding", "content-length", "content-encoding"] := by
          simpa using hcond
        refine ⟨fun h => hnotin (by simp [h]), fun h => hnotin (by simp [h]),
          fun h => absurd (by simp [h]) hnotin⟩
      · have hp1 : p = ("Content-Length", toString b.length) := by simpa using hp
        subst hp1
        refine ⟨?_, ?_, fun _ => rfl⟩
        · show ¬asciiLower "Content-Length" = "transfer-encoding"
          decide
        · show ¬asciiLower "Content-Length" = "content-encoding"
          decide

/-- Witness for C5: a persistent-store hit and an overlay hit on entries
holding stale framing headers are replayed via the replay block, and the
replay block on the stored entry yields Content-Length 11 (the actual body
length), not the stale stored 999. -/
theorem replay_derives_content_length_witness :
    (handle_request "" envOk [(demoKey, storedEntry)] [] "GET" "/p" stubHeaders []).response =
      .ok (replayResponse storedEntry.status_code storedEntry.headers storedEntry.body) ∧
    (handle_request "read" envOk [] [(demoKey, storedFileEntry)] "GET" "/p" stubHeaders []).response =
      .ok (replayResponse storedFileEntry.status_code storedFileEntry.headers
        storedFileEntry.body) ∧
    dictGet (replayResponse storedEntry.status_code storedEntry.headers
        storedEntry.body).headers "Content-Length" =
      some (toString storedEntry.body.length) := by
  have h := replay_derives_content_length "" envOk [(demoKey, storedEntry)] []
    "GET" "/p" stubHeaders [] "http://upstream" (by decide) (by decide)
  have h2 := replay_derives_content_length "read" envOk [] [(demoKey, storedFileEntry)]
    "GET" "/p" stubHeaders [] "http://upstream" (by decide) (by decide)
  refine ⟨?_, ?_, ?_⟩
  · exact h.1 storedEntry (by decide) (by simp [dbGet, demoKey])
  · exact h2.2.1 storedFileEntry (by simp [overlayGet, demoKey])
  · exact (h.2.2 storedEntry.status_code storedEntry.headers storedEntry.body).2.2.1

/-- C10: if writing the write-through overlay snapshot fails with any
exception, the exception is caught and logged rather than propagated: the
caller still receives the streamed upstream response, the overlay is left
unchanged, and the persistent-store entry written for the key stays in
place. -/
theorem overlay_write_failure_logged (env : Env) (db : List (String × Entry))
    (files : List (String × FileEntry)) (method path_qs : String)
    (reqHeaders : List (String × String)) (body : List Nat)
    (redirect_url errMsg : String)
    (hdr : headersGetCI reqHeaders REDIRECT_HEADER = some redirect_url)
    (hne : ¬redirect_url = "")
    (hmiss : dbGet db (hash_request method path_qs body redirect_url).1 = none)
    (hfs : env.fsError = some errMsg)
    (h2xx : 200 ≤ (forward_request env.upstream method path_qs reqHeaders body redirect_url).status ∧
      (forward_request env.upstream method path_qs reqHeaders body redirect_url).status < 300) :
    (handle_request "write" env db files method path_qs reqHeaders body).response =
      .ok (forward_request env.upstream method path_qs reqHeaders body redirect_url).streamed ∧
    dbGet (handle_request "write" env db files method path_qs reqHeaders body).db
        (hash_request method path_qs body redirect_url).1 =
      some ⟨(forward_request env.upstream method path_qs reqHeaders body redirect_url).status,
            (forward_request env.upstream method path_qs reqHeaders body redirect_url).headers,
            (forward_request env.upstream method path_qs reqHeaders body redirect_url).body⟩ ∧
    (handle_request "write" env db files method path_qs reqHeaders body).files = files ∧
    (handle_request "write" env db files method path_qs reqHeaders body).log =
      ["Error writing file cache " ++
        file_cache_path (hash_request method path_qs body redirect_url).1 ++ ": " ++ errMsg] := by
  refine ⟨?_, ?_, ?_, ?_⟩ <;>
    simp [handle_request, hdr, hne, hmiss, h2xx, save_file_cached_response, hfs,
      dbGet_dbPut_self]

/-- Witness for C10: the concrete 200 scenario with a failing overlay write
still answers the caller, keeps the store entry, and logs the error. -/
theorem overlay_write_failure_logged_witness :
    (handle_request "write" envOkFsFail [] [] "GET" "/p" stubHeaders []).response =
      .ok (forward_request envOkFsFail.upstream "GET" "/p" stubHeaders [] "http://upstream").streamed ∧
    dbGet (handle_request "write" envOkFsFail [] [] "GET" "/p" stubHeaders []).db
        (hash_request "GET" "/p" [] "http://upstream").1 =
      some ⟨(forward_request envOkFsFail.upstream "GET" "/p" stubHeaders [] "http://upstream").status,
            (forward_request envOkFsFail.upstream "GET" "/p" stubHeaders [] "http://upstream").headers,
            (forward_request envOkFsFail.upstream "GET" "/p" stubHeaders [] "http://upstream").body⟩ ∧
    (handle_request "write" envOkFsFail [] [] "GET" "/p" stubHeaders []).files = [] ∧
    (handle_request "write" envOkFsFail [] [] "GET" "/p" stubHeaders []).log =
      ["Error writing file cache " ++
        file_cache_path (hash_request "GET" "/p" [] "http://upstream").1 ++ ": " ++
        "No space left on device"] :=
  overlay_write_failure_logged envOkFsFail [] [] "GET" "/p" stubHeaders []
    "http://upstream" "No space left on device" (by decide) (by decide) rfl rfl
    (by decide)

end Agentica
